import Mathlib

/-
Shallow embedding of the mcli command-line-interface core.

Sources embedded here:
  - src/unnamed/part_001 (the single header holding namespace mcli):
    constants MAX_ARGS, MAX_ARG_LENGTH, CMD_BUFFER_SIZE (lines 16-18),
    struct CommandArgs (lines 26-33), struct CommandDefinition (lines 40-45),
    and class CliEngine: process_input (173-188), execute_command (195-198),
    reset_session (235-241), parse_command_line (245-276),
    get_command_input (279-346), dispatch_command (349-373).
  - src/include/adapters/mcli_esp32_wifi_sta.h: the inbound telnet framing
    filter inside ESP32WiFiIo::get_bytes (lines 95-115).

Modelling decisions:
  - A byte is a Nat; the code casts each input char to uint8_t before testing
    it, and all constants compared against are ASCII codes (8, 10, 13, 32,
    127, 255).
  - The pair (input_buffer_, input_pos_) is modelled as the list of the
    accumulated bytes input_buffer_[0 .. input_pos_): every byte at or past
    input_pos_ is NUL (kept so by the memsets at lines 237 and 325 and by the
    NUL write on backspace at line 302), so only that prefix is observable.
  - Output through the CliIoInterface sink is modelled as a list of abstract
    events: the prompt (line 175), the echoed byte (line 338), the echoed
    newline (line 317), the backspace-erase sequence (line 303), the help
    listing printed by print_help (lines 203-232), a user handler invocation
    commands_[i].execute(args, ctx) (line 367), and the three consecutive
    prints forming the command-not-found message (lines 182-184).
  - get_command_input reads one chunk per call from io_.get_bytes (at most 32
    bytes, line 281); the chunk is passed as an argument here, and the empty
    chunk models the no-data early return (lines 286-289).
  - C strings are NUL-terminated: parse_command_line copies its input with
    strncpy into a CMD_BUFFER_SIZE buffer (lines 250-251), so the effective
    string is the input cut at its first NUL byte and at CMD_BUFFER_SIZE - 1
    characters.
-/

namespace Mcli

def MAX_ARGS : Nat := 5

def MAX_ARG_LENGTH : Nat := 12

def CMD_BUFFER_SIZE : Nat := 128

-- ASCII bytes of a Lean string literal; used only to write concrete inputs.
def strBytes (s : String) : List Nat := s.toList.map Char.toNat

-- The byte content of the built-in command name "help" (line 355).
def helpName : List Nat := strBytes "help"

-- struct CommandArgs (lines 26-33): argc plus argv[MAX_ARGS][MAX_ARG_LENGTH].
-- argv is modelled as the list of the argc stored token strings; the parser
-- keeps args.argc equal to the number of filled slots, so argc is the length.
structure CommandArgs where
  argv : List (List Nat)
deriving DecidableEq, Repr

def CommandArgs.argc (a : CommandArgs) : Nat := a.argv.length

-- struct CommandDefinition (lines 40-45): name, handler pointer, help text.
-- The handler is an opaque function pointer; its invocation is modelled as an
-- output event carrying the table index, so only name and help are data.
structure CommandDefinition where
  name : List Nat
  help : List Nat
deriving DecidableEq, Repr

-- The engine session state (lines 383-386): input_buffer_ with input_pos_
-- (as the accumulated prefix list), last_line_char_, prompt_sent_.
structure EngineState where
  input_buffer : List Nat
  last_line_char : Nat
  prompt_sent : Bool
deriving DecidableEq, Repr

-- Constructor defaults (lines 384-386): empty buffer, last_line_char_ = 0,
-- prompt_sent_ = false.
def initState : EngineState :=
  { input_buffer := [], last_line_char := 0, prompt_sent := false }

-- Events written to the CliIoInterface sink.
inductive OutEvent where
  | promptEv : OutEvent
  | echo : Nat → OutEvent
  | newline : OutEvent
  | backspaceSeq : OutEvent
  | helpText : OutEvent
  | execCmd : Nat → CommandArgs → OutEvent
  | notFound : List Nat → OutEvent
deriving DecidableEq, Repr

def OutEvent.isNotFound : OutEvent → Bool
  | .notFound _ => true
  | _ => false

-- parse_command_line tokenizer loop (lines 253-273).  One iteration per
-- produced token, guarded by args.argc < MAX_ARGS - 1, so the remaining
-- iteration budget (MAX_ARGS - 1 - argc) is the fuel.  An iteration skips
-- leading spaces (line 256), stops when the string is exhausted (line 257),
-- copies up to MAX_ARG_LENGTH - 1 bytes of the current non-space run into
-- the next slot with NUL termination (lines 261-267), and skips trailing
-- spaces (line 272).  The bytes of a run beyond MAX_ARG_LENGTH - 1 are left
-- in place and feed the next iteration.  The string handed in is NUL-free
-- (cut at the first NUL below), so the *token tests reduce to space tests.
def tokenizeAux : Nat → List Nat → List (List Nat)
  | 0, _ => []
  | fuel + 1, s =>
    let s1 := s.dropWhile (fun c => c = 32)
    if s1.isEmpty then []
    else
      let tok := (s1.takeWhile (fun c => ¬ c = 32)).take (MAX_ARG_LENGTH - 1)
      tok :: tokenizeAux fuel ((s1.drop tok.length).dropWhile (fun c => c = 32))

-- CliEngine::parse_command_line (lines 245-276).
def parse_command_line (input : List Nat) : CommandArgs :=
  let temp := (input.take (CMD_BUFFER_SIZE - 1)).takeWhile (fun c => ¬ c = 0)
  ⟨tokenizeAux (MAX_ARGS - 1) temp⟩

-- Helper gluing the events emitted for the current byte in front of the
-- events of the rest of the chunk.
def addEvents (e : List OutEvent)
    (r : EngineState × Option CommandArgs × List OutEvent) :
    EngineState × Option CommandArgs × List OutEvent :=
  (r.1, r.2.1, e ++ r.2.2)

-- CliEngine::get_command_input (lines 279-346), processing the chunk the
-- call pulled from io_.get_bytes.  Result: the new session state, the parsed
-- line if the chunk completed one (the return at line 328; none models the
-- empty CommandArgs returned at lines 288 and 345), and the emitted events.
-- Note the early return at line 328: the bytes of the chunk after the byte
-- that completed the line are discarded, because read_buffer is local.
def get_command_input :
    EngineState → List Nat → EngineState × Option CommandArgs × List OutEvent
  | st, [] => (st, none, [])
  | st, c :: rest =>
    if c = 8 ∨ c = 127 then
      -- backspace (lines 299-306)
      if 0 < st.input_buffer.length then
        addEvents [.backspaceSeq]
          (get_command_input { st with input_buffer := st.input_buffer.dropLast } rest)
      else
        get_command_input st rest
    else if c = 13 ∨ c = 10 then
      -- line terminator handling (lines 309-334)
      if c = 10 ∧ st.last_line_char = 13 then
        -- second half of a CRLF pair: suppressed (lines 311-314)
        get_command_input { st with last_line_char := c } rest
      else if 0 < st.input_buffer.length then
        -- completed line: parse, clear the buffer, return (lines 320-329)
        ({ st with last_line_char := c, input_buffer := [] },
         some (parse_command_line st.input_buffer), [.newline])
      else
        -- empty line: re-arm the prompt and continue (line 331)
        addEvents [.newline]
          (get_command_input { st with last_line_char := c, prompt_sent := false } rest)
    else
      -- regular character (lines 337-341)
      if st.input_buffer.length < CMD_BUFFER_SIZE - 1 then
        addEvents [.echo c]
          (get_command_input { st with input_buffer := st.input_buffer ++ [c] } rest)
      else
        get_command_input st rest

-- The user-table scan of dispatch_command (lines 365-370): first exact
-- strcmp match in registration order wins; i is the running index.
def find_and_exec (cmds : List CommandDefinition) (i : Nat) (args : CommandArgs) :
    Bool × List OutEvent :=
  match cmds with
  | [] => (false, [])
  | c :: rest =>
    if c.name = args.argv.headD [] then (true, [.execCmd i args])
    else find_and_exec rest (i + 1) args

-- CliEngine::dispatch_command (lines 349-373).
def dispatch_command (cmds : List CommandDefinition) (args : CommandArgs) :
    Bool × List OutEvent :=
  if args.argc = 0 then (false, [])
  else if args.argv.headD [] = helpName then (true, [.helpText])
  else if cmds.length = 0 then (false, [])
  else find_and_exec cmds 0 args

-- The prompt block opening process_input (lines 174-177).
def prompt_phase (st : EngineState) : EngineState × List OutEvent :=
  if st.prompt_sent then (st, []) else ({ st with prompt_sent := true }, [.promptEv])

-- CliEngine::process_input (lines 173-188).
def process_input (cmds : List CommandDefinition) (st : EngineState)
    (chunk : List Nat) : EngineState × List OutEvent :=
  let p := prompt_phase st
  let g := get_command_input p.1 chunk
  let args := g.2.1.getD ⟨[]⟩
  if 0 < args.argc then
    let d := dispatch_command cmds args
    let nf := if d.1 then [] else [OutEvent.notFound (args.argv.headD [])]
    ({ g.1 with prompt_sent := false }, p.2 ++ g.2.2 ++ d.2 ++ nf)
  else
    (g.1, p.2 ++ g.2.2)

-- CliEngine::execute_command (lines 195-198).  The body only calls
-- parse_command_line and dispatch_command, neither of which reads or writes
-- input_buffer_, input_pos_, last_line_char_ or prompt_sent_; the session
-- state is threaded unchanged to express exactly that frame condition.
def execute_command (cmds : List CommandDefinition) (st : EngineState)
    (command_line : List Nat) : EngineState × Bool × List OutEvent :=
  let args := parse_command_line command_line
  let d := dispatch_command cmds args
  (st, d.1, d.2)

-- CliEngine::reset_session (lines 235-241): buffer zeroed, cursor zeroed,
-- last_line_char_ zeroed, prompt flag cleared.  No field survives.
def reset_session (_st : EngineState) : EngineState :=
  { input_buffer := [], last_line_char := 0, prompt_sent := false }

-- Feeding a sequence of read chunks through successive get_command_input
-- calls, collecting every completed (returned) line in order.
def run_engine : EngineState → List (List Nat) → EngineState × List CommandArgs
  | st, [] => (st, [])
  | st, chunk :: chunks =>
    let g := get_command_input st chunk
    let r := run_engine g.1 chunks
    (r.1, g.2.1.toList ++ r.2)

-- Feeding a sequence of read chunks through successive process_input calls,
-- collecting the emitted events in order.
def run_driver (cmds : List CommandDefinition) :
    EngineState → List (List Nat) → EngineState × List OutEvent
  | st, [] => (st, [])
  | st, chunk :: chunks =>
    let p := process_input cmds st chunk
    let r := run_driver cmds p.1 chunks
    (r.1, p.2 ++ r.2)

-- Inbound telnet framing filter of ESP32WiFiIo::get_bytes
-- (mcli_esp32_wifi_sta.h lines 95-115): an escape byte 0xFF consumes itself
-- and the following two bytes when they exist (read_pos + 2 < result,
-- line 103); otherwise the scan breaks, discarding the truncated sequence
-- and the rest of the buffer (lines 105-107); every other byte is compacted
-- into the output (line 111), whose length is the returned count.
def telnet_filter : List Nat → List Nat
  | [] => []
  | c :: rest =>
    if c = 255 then
      match rest with
      | _ :: _ :: rest2 => telnet_filter rest2
      | _ => []
    else
      c :: telnet_filter rest

-- ---------------------------------------------------------------------------
-- Helper lemmas
-- ---------------------------------------------------------------------------

-- The tokenizer produces at most `fuel` tokens: one per loop iteration.
theorem tokenizeAux_length_le (fuel : Nat) (s : List Nat) :
    (tokenizeAux fuel s).length ≤ fuel := by
  induction fuel generalizing s with
  | zero => simp [tokenizeAux]
  | succ n ih =>
    simp only [tokenizeAux]
    split
    · simp
    · simpa [List.length_cons] using Nat.succ_le_succ (ih _)

theorem dropWhile_eq_cons_head {α : Type} {p : α → Bool} {s tl : List α} {a : α}
    (h : s.dropWhile p = a :: tl) : p a = false := by
  induction s with
  | nil => simp at h
  | cons x xs ih =>
    by_cases hx : p x
    · rw [List.dropWhile_cons_of_pos hx] at h
      exact ih h
    · rw [List.dropWhile_cons_of_neg hx] at h
      injection h with h1 h2
      rw [← h1]
      simpa using hx

-- Shape of every token the tokenizer emits from a NUL-free string: nonempty,
-- free of spaces and NULs, and at most MAX_ARG_LENGTH - 1 bytes long.
theorem tokenizeAux_mem (fuel : Nat) (s : List Nat) (hs : 0 ∉ s) (t : List Nat)
    (ht : t ∈ tokenizeAux fuel s) :
    t ≠ [] ∧ 32 ∉ t ∧ 0 ∉ t ∧ t.length ≤ MAX_ARG_LENGTH - 1 := by
  induction fuel generalizing s with
  | zero => simp [tokenizeAux] at ht
  | succ n ih =>
    rcases h1 : s.dropWhile (fun c => c = 32) with _ | ⟨a, tl⟩
    · simp [tokenizeAux, h1] at ht
    · have hsub : a :: tl ⊆ s := by
        have := (List.dropWhile_sublist (l := s) (fun c => decide (c = 32))).subset
        rw [h1] at this
        exact this
      have ha : ¬ a = 32 := by simpa using dropWhile_eq_cons_head h1
      simp only [tokenizeAux, h1, List.isEmpty_cons, Bool.false_eq_true, if_false,
        List.mem_cons] at ht
      rcases ht with rfl | ht
      · refine ⟨?_, ?_, ?_, List.length_take_le _ _⟩
        · have htw : (a :: tl).takeWhile (fun c => ¬ c = 32) =
              a :: tl.takeWhile (fun c => ¬ c = 32) :=
            List.takeWhile_cons_of_pos (by simpa using ha)
          rw [htw, show MAX_ARG_LENGTH - 1 = 10 + 1 from rfl, List.take_succ_cons]
          simp
        · intro hx
          have hx1 := List.mem_of_mem_take hx
          have := List.mem_takeWhile_imp hx1
          simp at this
        · intro hx
          have hx1 := List.mem_of_mem_take hx
          have hx2 := (List.takeWhile_sublist (l := a :: tl)
            (fun c => decide (¬ c = 32))).subset hx1
          exact hs (hsub hx2)
      · refine ih _ ?_ ht
        intro hx
        have hx1 := (List.dropWhile_sublist (fun c => decide (c = 32))).subset hx
        have hx2 := List.drop_subset _ _ hx1
        exact hs (hsub hx2)

-- The user-table scan fails when no registered name equals argv[0].
theorem find_and_exec_none (cmds : List CommandDefinition) (i : Nat)
    (args : CommandArgs) (h : ∀ c ∈ cmds, ¬ c.name = args.argv.headD []) :
    find_and_exec cmds i args = (false, []) := by
  induction cmds generalizing i with
  | nil => rfl
  | cons c t ih =>
    simp only [find_and_exec, if_neg (h c (List.mem_cons_self c t))]
    exact ih (i + 1) (fun x hx => h x (List.mem_cons_of_mem c hx))

-- dispatch_command is unhandled for argc = 0 and for an argv[0] that is
-- neither the built-in help nor any registered name.
theorem dispatch_unmatched (cmds : List CommandDefinition) (args : CommandArgs)
    (h : args.argc = 0 ∨
      (¬ args.argv.headD [] = helpName ∧ ∀ c ∈ cmds, ¬ c.name = args.argv.headD [])) :
    dispatch_command cmds args = (false, []) := by
  rcases h with h0 | ⟨hh, hm⟩
  · simp [dispatch_command, h0]
  · unfold dispatch_command
    by_cases h0 : args.argc = 0
    · simp [h0]
    · rw [if_neg h0, if_neg hh]
      by_cases hl : cmds.length = 0
      · simp [hl]
      · rw [if_neg hl]
        exact find_and_exec_none cmds 0 args hm

-- get_command_input never emits the command-not-found message itself.
theorem gci_countP_notFound (st : EngineState) (chunk : List Nat) :
    ((get_command_input st chunk).2.2).countP OutEvent.isNotFound = 0 := by
  induction chunk generalizing st with
  | nil => rfl
  | cons c rest ih =>
    simp only [get_command_input]
    repeat' split
    all_goals
      simp [addEvents, List.countP_append, List.countP_cons, OutEvent.isNotFound, ih]

-- The framing filter copies a prefix free of the escape byte unchanged.
theorem telnet_filter_append (pre rest : List Nat) (h : 255 ∉ pre) :
    telnet_filter (pre ++ rest) = pre ++ telnet_filter rest := by
  induction pre with
  | nil => rfl
  | cons c t ih =>
    simp only [List.mem_cons, not_or] at h
    have hc : ¬ c = 255 := fun hce => h.1 hce.symm
    rw [List.cons_append, telnet_filter.eq_def]
    simp only [if_neg hc]
    rw [ih h.2, List.cons_append]

-- ---------------------------------------------------------------------------
-- Claim theorems
-- ---------------------------------------------------------------------------

/-- C1: chunking invariance fails in the code: get_command_input returns as
soon as a line completes (part_001 line 328) and the bytes remaining in the
local read buffer are discarded, so delivering the bytes of two lines in one
read chunk yields only the first completed line, while delivering the same
bytes split at the line boundary yields both lines.  This theorem evaluates
the engine at the failing input: the chunk [97, 13, 98, 13] (that is,
a CR b CR) in one call versus in two calls. -/
theorem c1_chunking_invariance_fails :
    (run_engine initState [[97, 13, 98, 13]]).2 = [⟨[[97]]⟩] ∧
    (run_engine initState [[97, 13], [98, 13]]).2 = [⟨[[97]]⟩, ⟨[[98]]⟩] := by
  decide

/-- C2 counterexample: tokenizing the line
"led on extra1 extra2 extra3 extra4" does not give argc = 5: the loop of
parse_command_line is guarded by args.argc < MAX_ARGS - 1 (part_001
line 254), so it stops at argc = 4, dropping the final two tokens, not only
the final one. -/
theorem c2_counterexample :
    (parse_command_line (strBytes "led on extra1 extra2 extra3 extra4")).argc = 4 ∧
    ¬ (parse_command_line (strBytes "led on extra1 extra2 extra3 extra4")).argc = 5 := by
  decide

/-- C2 amended: tokenizing "led on extra1 extra2 extra3 extra4" with
MAX_ARGS = 5 yields argc = 4 = MAX_ARGS - 1 with tokens led, on, extra1,
extra2, dropping the final two tokens; in general the tokenizer invariant is
0 ≤ argc ≤ MAX_ARGS - 1, with tokens beyond that bound silently ignored
rather than being an error. -/
theorem c2_amended :
    (parse_command_line (strBytes "led on extra1 extra2 extra3 extra4")).argv =
      [strBytes "led", strBytes "on", strBytes "extra1", strBytes "extra2"] ∧
    ∀ input : List Nat, (parse_command_line input).argc ≤ MAX_ARGS - 1 := by
  refine ⟨by decide, fun input => ?_⟩
  exact tokenizeAux_length_le (MAX_ARGS - 1) _

/-- C3 counterexample: a completed line consisting only of spaces does not
re-arm the prompt and is not dispatched.  Feeding the chunk
[32, 32, 13] (space space CR) to a session with a non-empty accumulated
buffer flag: get_command_input does complete a line (it returns some parse
result, since input_pos_ was positive when the CR arrived), but the parse
yields argc = 0, so process_input neither dispatches nor clears prompt_sent_
(part_001 lines 180-187), contradicting the claim that the flag is cleared
for every completed line including a spaces-only line. -/
theorem c3_counterexample :
    (get_command_input ⟨[], 0, true⟩ [32, 32, 13]).2.1 = some ⟨[]⟩ ∧
    (process_input [] ⟨[], 0, true⟩ [32, 32, 13]).1.prompt_sent = true := by
  decide

/-- C3 amended: for every call of process_input in which the fed chunk
completes a line whose parse yields at least one token (argc > 0), the
driver dispatches the parsed invocation, emits the not-found message when
dispatch fails, and clears the outstanding-prompt flag so the next call
re-emits the prompt.  A completed line consisting only of spaces parses to
argc = 0 and is neither dispatched nor clears the flag. -/
theorem c3_dispatch_on_completed_line (cmds : List CommandDefinition)
    (st st1 : EngineState) (chunk : List Nat) (args : CommandArgs)
    (ev : List OutEvent)
    (hg : get_command_input (prompt_phase st).1 chunk = (st1, some args, ev))
    (ha : 0 < args.argc) :
    process_input cmds st chunk =
      ({ st1 with prompt_sent := false },
       (prompt_phase st).2 ++ ev ++ (dispatch_command cmds args).2 ++
         (if (dispatch_command cmds args).1 then []
          else [OutEvent.notFound (args.argv.headD [])])) := by
  simp only [process_input]
  rw [hg]
  simp [ha]

/-- Witness for C3: the line led CR from a prompted idle session is parsed,
dispatched against the empty table (unhandled, so the not-found message is
emitted) and the prompt flag ends cleared. -/
theorem c3_dispatch_on_completed_line_witness :
    process_input [] ⟨[], 0, true⟩ [108, 101, 100, 13] =
      (⟨[], 13, false⟩,
       [OutEvent.echo 108, OutEvent.echo 101, OutEvent.echo 100,
        OutEvent.newline, OutEvent.notFound [108, 101, 100]]) := by
  have h := c3_dispatch_on_completed_line [] ⟨[], 0, true⟩ ⟨[], 13, true⟩
    [108, 101, 100, 13] ⟨[[108, 101, 100]]⟩
    [OutEvent.echo 108, OutEvent.echo 101, OutEvent.echo 100, OutEvent.newline]
    (by decide) (by decide)
  rw [h]
  decide

/-- C4 counterexample: the tokenizer does not drop the excess characters of
an over-long token.  The 16-character line "abcdefghijklmnop" yields two
argv entries, the first MAX_ARG_LENGTH - 1 = 11 characters and then the
remaining 5 characters as a further token (the copy loop at part_001
lines 263-266 leaves the uncopied tail of the run in place, and the next
iteration emits it), so argc = 2 where the claim requires at most one entry
per maximal non-space run. -/
theorem c4_counterexample :
    (parse_command_line (strBytes "abcdefghijklmnop")).argv =
      [strBytes "abcdefghijk", strBytes "lmnop"] ∧
    ¬ (parse_command_line (strBytes "abcdefghijklmnop")).argc ≤ 1 := by
  decide

/-- C4 amended: the tokenizer splits on runs of the space character and each
iteration copies at most MAX_ARG_LENGTH - 1 characters of the current run
into its own slot with guaranteed null termination; the excess characters of
a longer run are not dropped but continue as further tokens (subject to the
argc bound), as in "abcdefghijklmnop" splitting into abcdefghijk and lmnop.
Every emitted token is nonempty, contains no space and no NUL, and is at
most MAX_ARG_LENGTH - 1 characters long. -/
theorem c4_token_shape :
    (parse_command_line (strBytes "abcdefghijklmnop")).argv =
      [strBytes "abcdefghijk", strBytes "lmnop"] ∧
    ∀ (input t : List Nat), t ∈ (parse_command_line input).argv →
      t ≠ [] ∧ 32 ∉ t ∧ 0 ∉ t ∧ t.length ≤ MAX_ARG_LENGTH - 1 := by
  refine ⟨by decide, fun input t ht => ?_⟩
  refine tokenizeAux_mem (MAX_ARGS - 1)
    ((input.take (CMD_BUFFER_SIZE - 1)).takeWhile (fun c => ¬ c = 0)) ?_ t ht
  intro hx
  have := List.mem_takeWhile_imp hx
  simp at this

/-- Witness for C4 amended: the single token of the line "hi" is nonempty,
space-free, NUL-free and within the length bound. -/
theorem c4_token_shape_witness :
    strBytes "hi" ≠ [] ∧ 32 ∉ strBytes "hi" ∧ 0 ∉ strBytes "hi" ∧
      (strBytes "hi").length ≤ MAX_ARG_LENGTH - 1 :=
  c4_token_shape.2 (strBytes "hi") (strBytes "hi") (by decide)

/-- C5: CRLF handling.  An LF byte is suppressed exactly when the
immediately preceding terminator byte seen was CR: if last_line_char_ is CR,
processing an LF only records the LF and continues (part_001 lines 311-314);
if it is not CR, the LF acts as a terminator, completing the accumulated
line when the buffer is non-empty.  Consequently a line terminated by CR LF
yields exactly one completed line, not two, whether the pair arrives in one
chunk or split across calls, and feeding LF LF to an idle prompted session
yields two empty-line signals (two echoed newlines, prompt flag re-armed)
and zero completed commands. -/
theorem c5_crlf_pairing :
    (∀ (st : EngineState) (rest : List Nat), st.last_line_char = 13 →
      get_command_input st (10 :: rest) =
        get_command_input { st with last_line_char := 10 } rest) ∧
    (∀ (st : EngineState) (rest : List Nat), ¬ st.last_line_char = 13 →
      0 < st.input_buffer.length →
      get_command_input st (10 :: rest) =
        ({ st with last_line_char := 10, input_buffer := [] },
         some (parse_command_line st.input_buffer), [OutEvent.newline])) ∧
    (run_engine initState [[97, 98, 13, 10]]).2 = [⟨[[97, 98]]⟩] ∧
    (run_engine initState [[97, 98, 13], [10]]).2 = [⟨[[97, 98]]⟩] ∧
    get_command_input ⟨[], 0, true⟩ [10, 10] =
      (⟨[], 10, false⟩, none, [OutEvent.newline, OutEvent.newline]) := by
  refine ⟨?_, ?_, by decide, by decide, by decide⟩
  · intro st rest h
    simp [get_command_input, h]
  · intro st rest h hb
    simp [get_command_input, h, hb]

/-- Witness for C5: with the last terminator byte CR, a lone LF is absorbed
without completing a line; with last terminator byte 0 and a non-empty
buffer holding a, a lone LF completes the line a. -/
theorem c5_crlf_pairing_witness :
    get_command_input ⟨[], 13, true⟩ [10] = (⟨[], 10, true⟩, none, []) ∧
    get_command_input ⟨[97], 0, true⟩ [10] =
      (⟨[], 10, true⟩, some ⟨[[97]]⟩, [OutEvent.newline]) := by
  constructor
  · have h := c5_crlf_pairing.1 ⟨[], 13, true⟩ [] (by decide)
    rw [h]
    decide
  · have h := c5_crlf_pairing.2.1 ⟨[97], 0, true⟩ [] (by decide) (by decide)
    rw [h]
    decide

/-- C8: dispatch_command returns unhandled for every invocation whose
argv[0] is not the built-in help and matches no registered name exactly and
case-sensitively, including every invocation with argc = 0; and when such a
line is processed interactively, the events of that process_input call
contain the command-not-found message exactly once. -/
theorem c8_unmatched_dispatch :
    (∀ (cmds : List CommandDefinition) (args : CommandArgs),
      (args.argc = 0 ∨
        (¬ args.argv.headD [] = helpName ∧
         ∀ c ∈ cmds, ¬ c.name = args.argv.headD [])) →
      dispatch_command cmds args = (false, [])) ∧
    (∀ (cmds : List CommandDefinition) (st st1 : EngineState)
       (chunk : List Nat) (args : CommandArgs) (ev : List OutEvent),
      get_command_input (prompt_phase st).1 chunk = (st1, some args, ev) →
      0 < args.argc →
      ¬ args.argv.headD [] = helpName →
      (∀ c ∈ cmds, ¬ c.name = args.argv.headD []) →
      ((process_input cmds st chunk).2).countP OutEvent.isNotFound = 1) := by
  refine ⟨dispatch_unmatched, ?_⟩
  intro cmds st st1 chunk args ev hg ha hh hm
  have hd : dispatch_command cmds args = (false, []) :=
    dispatch_unmatched cmds args (Or.inr ⟨hh, hm⟩)
  have hev : ev.countP OutEvent.isNotFound = 0 := by
    have h0 := gci_countP_notFound (prompt_phase st).1 chunk
    rw [hg] at h0
    exact h0
  have hp : ((prompt_phase st).2).countP OutEvent.isNotFound = 0 := by
    by_cases hps : st.prompt_sent <;>
      simp [prompt_phase, hps, OutEvent.isNotFound]
  simp only [process_input]
  rw [hg]
  simp [ha, hd, List.countP_append, List.countP_cons, OutEvent.isNotFound,
    hev, hp]

/-- Witness for C8: the invocation on against a table registering only led
is unhandled, and processing the interactive line on CR against that table
emits the not-found message exactly once. -/
theorem c8_unmatched_dispatch_witness :
    dispatch_command [⟨strBytes "led", strBytes "toggle the led"⟩]
      ⟨[strBytes "on"]⟩ = (false, []) ∧
    ((process_input [⟨strBytes "led", strBytes "toggle the led"⟩]
        ⟨[], 0, true⟩ [111, 110, 13]).2).countP OutEvent.isNotFound = 1 := by
  constructor
  · exact c8_unmatched_dispatch.1 [⟨strBytes "led", strBytes "toggle the led"⟩]
      ⟨[strBytes "on"]⟩ (Or.inr ⟨by decide, by decide⟩)
  · exact c8_unmatched_dispatch.2 [⟨strBytes "led", strBytes "toggle the led"⟩]
      ⟨[], 0, true⟩ ⟨[], 13, true⟩ [111, 110, 13] ⟨[[111, 110]]⟩
      [OutEvent.echo 111, OutEvent.echo 110, OutEvent.newline]
      (by decide) (by decide) (by decide) (by decide)

/-- C6: the inbound framing filter of ESP32WiFiIo::get_bytes removes each
occurrence of the escape byte 0xFF together with the two following bytes,
compacts the remaining data bytes in order with no gaps (their count is the
returned length), discards a control sequence truncated at the end of the
buffer, and in particular maps [0x41, 0xFF, 0xFB, 0x01, 0x42] to the
effective payload [0x41, 0x42] of length 2. -/
theorem c6_framing_filter :
    telnet_filter [65, 255, 251, 1, 66] = [65, 66] ∧
    (telnet_filter [65, 255, 251, 1, 66]).length = 2 ∧
    (∀ (pre post : List Nat) (x y : Nat), 255 ∉ pre →
      telnet_filter (pre ++ 255 :: x :: y :: post) = pre ++ telnet_filter post) ∧
    (∀ (pre : List Nat) (x : Nat), 255 ∉ pre →
      telnet_filter (pre ++ [255, x]) = pre) ∧
    (∀ pre : List Nat, 255 ∉ pre → telnet_filter (pre ++ [255]) = pre) ∧
    (∀ l : List Nat, 255 ∉ l → telnet_filter l = l) := by
  refine ⟨by decide, by decide, ?_, ?_, ?_, ?_⟩
  · intro pre post x y h
    rw [telnet_filter_append pre _ h]
    rfl
  · intro pre x h
    rw [telnet_filter_append pre _ h]
    simp [telnet_filter]
  · intro pre h
    rw [telnet_filter_append pre _ h]
    simp [telnet_filter]
  · intro l h
    have := telnet_filter_append l [] h
    simpa [telnet_filter] using this

/-- Witness for C6: the example payload, a mid-buffer control sequence, and
the two truncated-sequence shapes, all at concrete bytes. -/
theorem c6_framing_filter_witness :
    telnet_filter [65, 255, 251, 1, 66] = [65, 66] ∧
    telnet_filter [7, 255, 3] = [7] ∧
    telnet_filter [7, 255] = [7] ∧
    telnet_filter [7, 9] = [7, 9] := by
  refine ⟨c6_framing_filter.1, ?_, ?_, ?_⟩
  · have h := c6_framing_filter.2.2.2.1 [7] 3 (by decide)
    simpa using h
  · have h := c6_framing_filter.2.2.2.2.1 [7] (by decide)
    simpa using h
  · exact c6_framing_filter.2.2.2.2.2 [7, 9] (by decide)

/-- C7: for every invocation with argc at least 1 and argv[0] equal to
"help", dispatch_command returns true and prints the help listing; the
built-in test (part_001 line 355) runs before the user-table scan, so this
holds for every command table, including one that registers its own entry
named "help", whose handler is therefore never invoked (the emitted events
are exactly the help listing, with no handler-execution event). -/
theorem c7_help_shadows_user_table (cmds : List CommandDefinition)
    (args : CommandArgs) (h1 : 1 ≤ args.argc)
    (h2 : args.argv.headD [] = helpName) :
    dispatch_command cmds args = (true, [OutEvent.helpText]) := by
  have h0 : ¬ args.argc = 0 := by omega
  unfold dispatch_command
  rw [if_neg h0, if_pos h2]

/-- Witness for C7: dispatching help against a table that registers a user
command also named help returns handled with only the help listing. -/
theorem c7_help_shadows_user_table_witness :
    dispatch_command [⟨helpName, strBytes "user help entry"⟩] ⟨[helpName]⟩ =
      (true, [OutEvent.helpText]) :=
  c7_help_shadows_user_table [⟨helpName, strBytes "user help entry"⟩]
    ⟨[helpName]⟩ (by decide) (by decide)

/-- C9: reset_session zeroes the line-accumulation buffer and cursor, clears
the last-terminator byte and the prompt flag (part_001 lines 235-241), so
the post-reset state is a constant independent of the pre-reset state: any
two sessions behave identically after reset under every subsequent chunk
sequence, and in particular a line typed before the reset never appears in a
subsequently completed or dispatched command, as checked on a session
holding the pending bytes of secret: after reset, feeding x CR dispatches
exactly the command x. -/
theorem c9_reset_discards_pending_input :
    (∀ st : EngineState, reset_session st = initState) ∧
    (∀ (cmds : List CommandDefinition) (st st2 : EngineState)
       (chunks : List (List Nat)),
      run_driver cmds (reset_session st) chunks =
        run_driver cmds (reset_session st2) chunks) ∧
    (run_engine (reset_session ⟨strBytes "secret", 0, true⟩) [[120, 13]]).2 =
      [⟨[[120]]⟩] := by
  exact ⟨fun _ => rfl, fun _ _ _ _ => rfl, by decide⟩

/-- C10: execute_command tokenizes and dispatches a command line without
reading or modifying the interactive session state: its body (part_001
lines 195-198) calls only parse_command_line and dispatch_command, which
touch no session field, so the state after the call equals the state before,
the returned result is exactly the dispatch of the parse, and a pending
interactive chunk is processed identically before and after the call. -/
theorem c10_execute_command_frame (cmds : List CommandDefinition)
    (st : EngineState) (line : List Nat) :
    (execute_command cmds st line).1 = st ∧
    (execute_command cmds st line).2.1 =
      (dispatch_command cmds (parse_command_line line)).1 ∧
    (execute_command cmds st line).2.2 =
      (dispatch_command cmds (parse_command_line line)).2 ∧
    (∀ chunk : List Nat,
      get_command_input (execute_command cmds st line).1 chunk =
        get_command_input st chunk) :=
  ⟨rfl, rfl, rfl, fun _ => rfl⟩

end Mcli
